import Mathlib

/-
Shallow embedding of `src/buf_with_bytesmut.rs` from the udp-stream
repository: a UDP listener that demultiplexes one physical socket into
per-peer virtual connections (`UdpStream`), plus a dialed flavor created
by `UdpStream::connect`.

Modelling conventions:
* a byte chunk (`bytes::Bytes`) is a `List Nat`;
* a tokio bounded mpsc channel is a `Chan`: its pending queue plus
  liveness flags for the receiving and sending halves (the halves live
  on opposite sides of the code; here the whole channel state is kept in
  one record, owned by whichever side the theorem talks about);
* awaited operations that can suspend return an explicit
  pending/blocked constructor instead of suspending;
* the demultiplexing loop body (`UdpListener::bind`, lines 74-125) is a
  step function on a `LoopState`; the `tokio::select!` arms are separate
  step functions (`cleanupStep`, `datagramStep`) since the select picks
  one ready arm per iteration.
-/

/-- Byte chunks: one `bytes::Bytes` view, one received datagram payload. -/
abbrev Bytes := List Nat

/-- Remote or local endpoint: the (address, port) pair `std::net::SocketAddr`. -/
structure SocketAddr where
  ip : Nat
  port : Nat
deriving DecidableEq

/-- Result of polling a Rust future: `std::task::Poll`. -/
inductive Poll (α : Type) where
  | ready (a : α)
  | pending
deriving DecidableEq

/-- Subset of `std::io::Error` kinds the embedded code constructs or forwards. -/
inductive IOErr where
  | brokenPipe
  | osError (code : Nat)
deriving DecidableEq

/-- Capacity of the accept queue and of every inbound queue
    (`const CHANNEL_LEN: usize = 100`, line 21). -/
def CHANNEL_LEN : Nat := 100

/-- Receive-buffer unit (`const UDP_BUFFER_SIZE: usize = 17480`, line 19). -/
def UDP_BUFFER_SIZE : Nat := 17480

/-- Bounded tokio mpsc channel (`tokio::sync::mpsc::channel(cap)`).
    `queue` holds the sent-but-not-received values in FIFO order;
    `rxAlive` is false once the receiving half has been dropped;
    `txAlive` is false once every sending half has been dropped. -/
structure Chan (α : Type) where
  cap : Nat
  queue : List α
  rxAlive : Bool
  txAlive : Bool
deriving DecidableEq

/-- Fresh channel as returned by `mpsc::channel(cap)`: empty, both halves alive. -/
def Chan.fresh (α : Type) (cap : Nat) : Chan α :=
  { cap := cap, queue := [], rxAlive := true, txAlive := true }

/-- Outcome of an awaited bounded `Sender::send(x).await`. -/
inductive SendAttempt (α : Type) where
  | ok (ch : Chan α)
  | closed
  | block
deriving DecidableEq

/-- Awaited bounded send, tokio semantics: fails immediately when the
    receiving half is gone (whatever the fill level), enqueues when there
    is room, otherwise suspends until room appears. -/
def bsend {α : Type} (ch : Chan α) (x : α) : SendAttempt α :=
  if ch.rxAlive = false then .closed
  else if ch.queue.length < ch.cap then .ok { ch with queue := ch.queue ++ [x] }
  else .block

/-- Non-blocking `Sender::try_send(x)`: returns at once; the boolean records
    whether the value was enqueued. On a full or closed channel the value is
    simply lost. -/
def trySend {α : Type} (ch : Chan α) (x : α) : Chan α × Bool :=
  if ch.rxAlive = true ∧ ch.queue.length < ch.cap then
    ({ ch with queue := ch.queue ++ [x] }, true)
  else (ch, false)

/-- Outcome of polling `Receiver::poll_recv`. -/
inductive RecvPoll (α : Type) where
  | readySome (a : α) (ch : Chan α)
  | readyNone
  | pending
deriving DecidableEq

/-- Polled receive, tokio semantics: yields the head of the queue when one is
    buffered (even after every sender is gone), reports closure only once the
    queue is drained and the sending side has disappeared, else is pending. -/
def pollRecv {α : Type} (ch : Chan α) : RecvPoll α :=
  match ch.queue with
  | a :: rest => .readySome a { ch with queue := rest }
  | [] => if ch.txAlive then .pending else .readyNone

/-- Association list standing for the demux loop's
    `HashMap<SocketAddr, mpsc::Sender<Bytes>>`; the sender it stores is
    modelled as the whole channel state, the loop being its single writer. -/
def lookupA {α : Type} : List (SocketAddr × α) → SocketAddr → Option α
  | [], _ => none
  | (k, v) :: rest, a => if k = a then some v else lookupA rest a

/-- HashMap::remove on the association list. -/
def eraseA {α : Type} : List (SocketAddr × α) → SocketAddr → List (SocketAddr × α)
  | [], _ => []
  | (k, v) :: rest, a => if k = a then eraseA rest a else (k, v) :: eraseA rest a

/-- HashMap::insert on the association list (replaces any existing binding). -/
def insertA {α : Type} (m : List (SocketAddr × α)) (k : SocketAddr) (v : α) :
    List (SocketAddr × α) :=
  (k, v) :: eraseA m k

theorem lookupA_insertA_self {α : Type} (m : List (SocketAddr × α)) (k : SocketAddr)
    (v : α) : lookupA (insertA m k v) k = some v := by
  simp [insertA, lookupA]

theorem eraseA_eraseA {α : Type} (m : List (SocketAddr × α)) (k : SocketAddr) :
    eraseA (eraseA m k) k = eraseA m k := by
  induction m with
  | nil => rfl
  | cons kv rest ih =>
    obtain ⟨k', v⟩ := kv
    by_cases h : k' = k
    · simp [eraseA, h, ih]
    · simp [eraseA, h, ih]

theorem eraseA_absent {α : Type} (m : List (SocketAddr × α)) (k : SocketAddr)
    (h : lookupA m k = none) : eraseA m k = m := by
  induction m with
  | nil => rfl
  | cons kv rest ih =>
    obtain ⟨k', v⟩ := kv
    by_cases hk : k' = k
    · simp [lookupA, hk] at h
    · simp [lookupA, hk] at h
      simp [eraseA, hk, ih h]

theorem lookupA_eraseA_self {α : Type} (m : List (SocketAddr × α)) (k : SocketAddr) :
    lookupA (eraseA m k) k = none := by
  induction m with
  | nil => rfl
  | cons kv rest ih =>
    obtain ⟨k', v⟩ := kv
    by_cases h : k' = k
    · simp [eraseA, h, ih]
    · simp [eraseA, lookupA, h, ih]

/-- State owned by one demultiplexing-loop task (`UdpListener::bind`,
    lines 65-128): the peer table `streams`, the accept queue `tx`/`rx`
    pair, and the capacity-1 cleanup channel `drop_tx`/`drop_rx`.
    Accept-queue entries are recorded by the accepted peer endpoint; the
    `UdpStream` paired with it in the source is determined by that
    endpoint (its receiver is the table's fresh channel). -/
structure LoopState where
  local_addr : SocketAddr
  streams : List (SocketAddr × Chan Bytes)
  acceptQ : Chan SocketAddr
  dropQ : Chan SocketAddr
deriving DecidableEq

/-- Initial loop state built by `UdpListener::bind` (lines 61-71):
    `mpsc::channel(CHANNEL_LEN)` for accept, an empty `HashMap`, and
    `mpsc::channel(1)` for cleanup notifications. -/
def UdpListener.bind (local_addr : SocketAddr) : LoopState :=
  { local_addr := local_addr
    streams := []
    acceptQ := Chan.fresh SocketAddr CHANNEL_LEN
    dropQ := Chan.fresh SocketAddr 1 }

/-- Cleanup arm of the select (lines 79-82): `peer_addr` is the endpoint just
    dequeued from `drop_rx`; the loop removes it from the table, with no
    further checks. -/
def cleanupStep (s : LoopState) (peer_addr : SocketAddr) : LoopState :=
  { s with streams := eraseA s.streams peer_addr }

/-- Result of one datagram arm of the select. `ok` is the `continue` back to
    the loop head (the source has no error exit from this arm); `blocked`
    means an awaited bounded send suspended the iteration, stalling the whole
    loop until the counterpart queue drains. -/
inductive StepOut where
  | ok (s : LoopState)
  | blocked (s : LoopState)
deriving DecidableEq

/-- Datagram arm of the select (lines 85-117): route the received chunk by
    source endpoint. Known endpoint: awaited push onto its inbound queue; on
    failure (`child_tx.closed().await` resolves at once, the channel being
    closed) remove the stale entry and drop the datagram. Unknown endpoint:
    make a fresh `mpsc::channel(CHANNEL_LEN)`, push the chunk, then push the
    new (stream, endpoint) pair onto the accept queue; only if both pushes
    succeed is the entry inserted, else the connection is discarded and the
    loop continues. -/
def datagramStep (s : LoopState) (addr : SocketAddr) (chunk : Bytes) : StepOut :=
  match lookupA s.streams addr with
  | some child_tx =>
    match bsend child_tx chunk with
    | .ok ch2 => .ok { s with streams := insertA s.streams addr ch2 }
    | .closed => .ok { s with streams := eraseA s.streams addr }
    | .block => .blocked s
  | none =>
    match bsend (Chan.fresh Bytes CHANNEL_LEN) chunk with
    | .closed => .ok s
    | .block => .blocked s
    | .ok child2 =>
      match bsend s.acceptQ addr with
      | .closed => .ok s
      | .block => .blocked s
      | .ok q2 => .ok { s with acceptQ := q2, streams := insertA s.streams addr child2 }

/-- Run of the datagram arm over a trace of received datagrams: each is the
    next `recv_buf_from` completion. The single loop task processes them in
    order; when an iteration blocks on a full bounded queue, nothing further
    is received, and the unconsumed suffix (blocked datagram included) is
    returned. -/
def runLoop : LoopState → List (SocketAddr × Bytes) → LoopState × List (SocketAddr × Bytes)
  | s, [] => (s, [])
  | s, (a, b) :: rest =>
    match datagramStep s a b with
    | .ok s2 => runLoop s2 rest
    | .blocked _ => (s, (a, b) :: rest)

/-- Result of `UdpListener::accept` (lines 139-146): lock the accept
    receiver, awaited `recv`; `None` maps to a BrokenPipe error, otherwise
    the next (stream, endpoint) pair — recorded here by its endpoint — is
    yielded; while the queue is empty and the demux task still holds the
    sender, the call suspends. -/
inductive AcceptResult where
  | got (peer : SocketAddr) (q : Chan SocketAddr)
  | brokenPipe
  | suspend
deriving DecidableEq

/-- Accept on the listener: awaited receive from the accept queue, with
    tokio `recv` semantics (buffered pairs are yielded even after the
    producer is gone; closure surfaces only once drained). -/
def UdpListener.accept (q : Chan SocketAddr) : AcceptResult :=
  match q.queue with
  | a :: rest => .got a { q with queue := rest }
  | [] => if q.txAlive then .suspend else .brokenPipe

/-- Destination of a read: `tokio::io::ReadBuf`. `capacity` is the unfilled
    remainder (`remaining()`), `filled` the bytes appended so far. -/
structure ReadBuf where
  capacity : Nat
  filled : Bytes
deriving DecidableEq

/-- Library call `ReadBuf::put_slice` (tokio): appends the whole slice when
    it fits in the remaining capacity and otherwise panics — the assertion
    `buf.len() must fit in remaining()`. The panic is the `none` branch. -/
def ReadBuf.put_slice (b : ReadBuf) (s : Bytes) : Option ReadBuf :=
  if s.length ≤ b.capacity then
    some { capacity := b.capacity - s.length, filled := b.filled ++ s }
  else none

/-- Result of one `poll_read` on a virtual connection. `panicked` is the
    `ReadBuf::put_slice` capacity assertion firing (the chunk was already
    dequeued when it fires). -/
inductive ReadResult where
  | ok (ch : Chan Bytes) (dest : ReadBuf)
  | brokenPipe
  | panicked (ch : Chan Bytes)
  | pending
deriving DecidableEq

/-- AsyncRead::poll_read for `UdpStream` (lines 239-264), given the receiver
    mutex acquired (a contended lock only adds a pending round trip and
    touches no state): poll the inbound queue; a chunk is pushed whole into
    the destination via `buf.put_slice(&inner_buf[..])`; a closed, drained
    queue yields a BrokenPipe error; otherwise pending. -/
def UdpStream.poll_read (ch : Chan Bytes) (dest : ReadBuf) : ReadResult :=
  match pollRecv ch with
  | .readySome chunk ch2 =>
    match dest.put_slice chunk with
    | some dest2 => .ok ch2 dest2
    | none => .panicked ch2
  | .readyNone => .brokenPipe
  | .pending => .pending

/-- Per-connection state of a `UdpStream` (lines 156-164). `outbox` is the
    trace of datagrams this handle has pushed into the shared physical
    socket; `handler` records whether an owned background reader task exists
    (dialed flavor); `drop` is the cleanup-notification sender (accepted
    flavor only). -/
structure UdpStreamState where
  local_addr : SocketAddr
  peer_addr : SocketAddr
  receiver : Chan Bytes
  outbox : List (Bytes × SocketAddr)
  handler : Bool
  drop : Option (Chan SocketAddr)
deriving DecidableEq

/-- Environment outcome of one `UdpSocket::poll_send_to` attempt. -/
inductive SendOutcome where
  | success
  | failure (e : IOErr)
  | notReady
deriving DecidableEq

/-- Library call `UdpSocket::poll_send_to` on the shared socket: on success
    the whole buffer leaves as one datagram to `target` and the byte count
    is returned; an error returns the error; otherwise pending. -/
def UdpSocket.poll_send_to (outbox : List (Bytes × SocketAddr)) (buf : Bytes)
    (target : SocketAddr) : SendOutcome → Poll (Except IOErr Nat) × List (Bytes × SocketAddr)
  | .success => (.ready (.ok buf.length), outbox ++ [(buf, target)])
  | .failure e => (.ready (.error e), outbox)
  | .notReady => (.pending, outbox)

/-- AsyncWrite::poll_write for `UdpStream` (lines 268-279): one
    `poll_send_to(buf, peer_addr)`; a ready error additionally fires a
    non-blocking `try_send(peer_addr)` on the cleanup channel when one is
    present, then surfaces the error unchanged. -/
def UdpStream.poll_write (st : UdpStreamState) (buf : Bytes) (oc : SendOutcome) :
    Poll (Except IOErr Nat) × UdpStreamState :=
  match UdpSocket.poll_send_to st.outbox buf st.peer_addr oc with
  | (.ready (.ok r), ob) => (.ready (.ok r), { st with outbox := ob })
  | (.ready (.error e), ob) =>
    (.ready (.error e),
      { st with outbox := ob
                drop := st.drop.map (fun c => (trySend c st.peer_addr).1) })
  | (.pending, ob) => (.pending, { st with outbox := ob })

/-- AsyncWrite::poll_flush (lines 280-282): immediately Ready(Ok(())), no
    state touched. -/
def UdpStream.poll_flush (st : UdpStreamState) : Poll (Except IOErr Unit) × UdpStreamState :=
  (.ready (.ok ()), st)

/-- AsyncWrite::poll_shutdown (lines 283-285): immediately Ready(Ok(())), no
    state touched — in particular no cleanup notification. -/
def UdpStream.poll_shutdown (st : UdpStreamState) : Poll (Except IOErr Unit) × UdpStreamState :=
  (.ready (.ok ()), st)

/-- Inherent `UdpStream::shutdown` (lines 231-235): non-blocking best-effort
    cleanup notification carrying the peer endpoint, when a cleanup sender
    exists. -/
def UdpStream.shutdown (st : UdpStreamState) : UdpStreamState :=
  { st with drop := st.drop.map (fun c => (trySend c st.peer_addr).1) }

/-- Drop::drop for `UdpStream` (lines 166-176): abort the owned background
    task when there is one, then the same best-effort cleanup notification
    as `shutdown`. -/
def UdpStream.drop (st : UdpStreamState) : UdpStreamState :=
  { st with handler := false
            drop := st.drop.map (fun c => (trySend c st.peer_addr).1) }

/-- State of one `tokio::net::UdpSocket`: its bound local endpoint and the
    peer it has been connected to, if any. An unconnected UDP socket
    receives datagrams from any source; a connected one is filtered by the
    OS to its connected peer. -/
structure UdpSocketState where
  local_addr : SocketAddr
  connectedPeer : Option SocketAddr
deriving DecidableEq

/-- Library call `UdpSocket::connect(addr)` as it acts once its future is
    awaited to completion: the socket becomes connected to `addr`. The
    tokio method is `async`; constructing the future and dropping it
    without `.await` performs none of this. -/
def UdpSocketState.connectAwaited (s : UdpSocketState) (addr : SocketAddr) :
    UdpSocketState :=
  { s with connectedPeer := some addr }

/-- OS delivery filter of a UDP socket: a datagram from `src` reaches the
    socket's receive path when the socket is unconnected, or connected to
    exactly `src`. -/
def UdpSocketState.deliverable (s : UdpSocketState) (src : SocketAddr) : Bool :=
  match s.connectedPeer with
  | some p => src == p
  | none => true

/-- Result of `UdpStream::connect` (lines 186-221): the returned stream
    state plus the state of the fresh local socket its private reader task
    receives on. -/
structure ConnectResult where
  stream : UdpStreamState
  socket : UdpSocketState
deriving DecidableEq

/-- UdpStream::connect (lines 186-221): bind a fresh unspecified-address
    socket (the OS assigns `eph`), then line 195 — `socket.connect(&addr);`
    — creates the async connect future and drops it without `.await`, so
    `UdpSocketState.connectAwaited` is never applied and the socket stays
    unconnected; then `mpsc::channel(CHANNEL_LEN)` and the private reader
    task are set up and the stream is returned with `drop := none`. -/
def UdpStream.connect (addr : SocketAddr) (eph : SocketAddr) : ConnectResult :=
  { socket := { local_addr := eph, connectedPeer := none }
    stream :=
      { local_addr := eph
        peer_addr := addr
        receiver := Chan.fresh Bytes CHANNEL_LEN
        outbox := []
        handler := true
        drop := none } }

/-- One round of a dialed connection's private reader task (lines 200-212)
    for a datagram sent by `src`. -/
inductive ReaderStep where
  | pushed (ch : Chan Bytes)
  | stopped
  | waiting
  | filtered
deriving DecidableEq

/-- Reader-task round: the OS hands the task a datagram whenever the socket
    filter admits its source (`recv_buf_from` does not itself inspect the
    source; the task pushes whatever arrives); the chunk is then pushed onto
    the private inbound queue with an awaited bounded send — closure breaks
    the task's loop, a full queue suspends it. -/
def dialReaderStep (socket : UdpSocketState) (ch : Chan Bytes) (src : SocketAddr)
    (chunk : Bytes) : ReaderStep :=
  if socket.deliverable src then
    match bsend ch chunk with
    | .ok ch2 => .pushed ch2
    | .closed => .stopped
    | .block => .waiting
  else .filtered

/-- Reads repeated `n` times on an inbound queue, each into a fresh
    destination of capacity `destCap`, collecting what each successful read
    leaves in the destination; any non-`ok` poll ends the run. -/
def readMany (ch : Chan Bytes) (destCap : Nat) : Nat → List Bytes
  | 0 => []
  | n + 1 =>
    match UdpStream.poll_read ch { capacity := destCap, filled := [] } with
    | .ok ch2 dest2 => dest2.filled :: readMany ch2 destCap n
    | _ => []

theorem datagramStep_known_ok (s : LoopState) (p : SocketAddr) (ch : Chan Bytes)
    (b : Bytes) (hl : lookupA s.streams p = some ch) (ha : ch.rxAlive = true)
    (hroom : ch.queue.length < ch.cap) :
    datagramStep s p b =
      .ok { s with streams := insertA s.streams p { ch with queue := ch.queue ++ [b] } } := by
  simp [datagramStep, hl, bsend, ha, hroom]

theorem datagramStep_known_dead (s : LoopState) (p : SocketAddr) (ch : Chan Bytes)
    (b : Bytes) (hl : lookupA s.streams p = some ch) (ha : ch.rxAlive = false) :
    datagramStep s p b = .ok { s with streams := eraseA s.streams p } := by
  simp [datagramStep, hl, bsend, ha]

theorem datagramStep_known_full (s : LoopState) (p : SocketAddr) (ch : Chan Bytes)
    (b : Bytes) (hl : lookupA s.streams p = some ch) (ha : ch.rxAlive = true)
    (hfull : ch.cap ≤ ch.queue.length) :
    datagramStep s p b = .blocked s := by
  simp [datagramStep, hl, bsend, ha, Nat.not_lt.mpr hfull]

theorem datagramStep_new_closed (s : LoopState) (p : SocketAddr) (b : Bytes)
    (hl : lookupA s.streams p = none) (hrx : s.acceptQ.rxAlive = false) :
    datagramStep s p b = .ok s := by
  simp [datagramStep, hl, bsend, Chan.fresh, CHANNEL_LEN, hrx]

theorem datagramStep_new_ok (s : LoopState) (p : SocketAddr) (b : Bytes)
    (hl : lookupA s.streams p = none) (hrx : s.acceptQ.rxAlive = true)
    (hroom : s.acceptQ.queue.length < s.acceptQ.cap) :
    datagramStep s p b =
      .ok { s with
        acceptQ := { s.acceptQ with queue := s.acceptQ.queue ++ [p] }
        streams := insertA s.streams p
          { cap := CHANNEL_LEN, queue := [b], rxAlive := true, txAlive := true } } := by
  simp [datagramStep, hl, bsend, Chan.fresh, CHANNEL_LEN, hrx, hroom]

theorem datagramStep_new_full (s : LoopState) (p : SocketAddr) (b : Bytes)
    (hl : lookupA s.streams p = none) (hrx : s.acceptQ.rxAlive = true)
    (hfull : s.acceptQ.cap ≤ s.acceptQ.queue.length) :
    datagramStep s p b = .blocked s := by
  simp [datagramStep, hl, bsend, Chan.fresh, CHANNEL_LEN, hrx, Nat.not_lt.mpr hfull]

theorem runLoop_blocked_head (s : LoopState) (a : SocketAddr) (b : Bytes)
    (rest : List (SocketAddr × Bytes)) (h : datagramStep s a b = .blocked s) :
    runLoop s ((a, b) :: rest) = (s, (a, b) :: rest) := by
  simp [runLoop, h]

theorem runLoop_single_peer (p : SocketAddr) (ds : List Bytes) :
    ∀ (s : LoopState) (ch : Chan Bytes), lookupA s.streams p = some ch →
      ch.rxAlive = true → ch.queue.length + ds.length ≤ ch.cap →
      (runLoop s (ds.map (fun b => (p, b)))).2 = [] ∧
      lookupA (runLoop s (ds.map (fun b => (p, b)))).1.streams p =
        some { ch with queue := ch.queue ++ ds } := by
  induction ds with
  | nil =>
    intro s ch hl _ _
    simpa [runLoop] using hl
  | cons b ds ih =>
    intro s ch hl ha hcap
    have hroom : ch.queue.length < ch.cap := by
      simp only [List.length_cons] at hcap
      omega
    have hstep := datagramStep_known_ok s p ch b hl ha hroom
    have hlook :
        lookupA (insertA s.streams p { ch with queue := ch.queue ++ [b] }) p =
          some { ch with queue := ch.queue ++ [b] } :=
      lookupA_insertA_self _ _ _
    have hcap2 : ({ ch with queue := ch.queue ++ [b] } : Chan Bytes).queue.length
        + ds.length ≤ ({ ch with queue := ch.queue ++ [b] } : Chan Bytes).cap := by
      simp only [List.length_append, List.length_cons, List.length_nil] at hcap ⊢
      omega
    have := ih { s with streams := insertA s.streams p { ch with queue := ch.queue ++ [b] } }
      { ch with queue := ch.queue ++ [b] } hlook ha hcap2
    simpa [runLoop, hstep, List.append_assoc] using this

theorem readMany_all (destCap : Nat) (q : List Bytes) :
    ∀ (c : Nat) (rx tx : Bool), (∀ b ∈ q, b.length ≤ destCap) →
      readMany { cap := c, queue := q, rxAlive := rx, txAlive := tx } destCap q.length = q := by
  induction q with
  | nil => intro c rx tx _; rfl
  | cons a q ih =>
    intro c rx tx hlen
    have ha : a.length ≤ destCap := hlen a (by simp)
    have hq : ∀ b ∈ q, b.length ≤ destCap := fun b hb => hlen b (by simp [hb])
    simp [readMany, UdpStream.poll_read, pollRecv, ReadBuf.put_slice, ha, ih c rx tx hq]

def addrA : SocketAddr := { ip := 1, port := 10 }

def addrB : SocketAddr := { ip := 2, port := 20 }

/-- Queue state used as a concrete read counterexample: one buffered
    three-byte chunk, both channel halves alive. -/
def wChBig : Chan Bytes :=
  { cap := CHANNEL_LEN, queue := [[5, 6, 7]], rxAlive := true, txAlive := true }

/-- Claim C1 counterexample: a read into a destination of capacity 2 whose
    next queued chunk is the 3-byte [5, 6, 7] does not produce the outcome
    the claim predicts — destination filled with the 2-byte prefix [5, 6]
    and the remainder discarded — because `poll_read` hands the whole chunk
    to `ReadBuf::put_slice`, whose capacity assertion panics. -/
theorem claim_C1_counterexample :
    UdpStream.poll_read wChBig { capacity := 2, filled := [] } =
      .panicked { cap := CHANNEL_LEN, queue := [], rxAlive := true, txAlive := true } ∧
    UdpStream.poll_read wChBig { capacity := 2, filled := [] } ≠
      .ok { cap := CHANNEL_LEN, queue := [], rxAlive := true, txAlive := true }
        { capacity := 0, filled := [5, 6] } :=
  ⟨rfl, by decide⟩

/-- Claim C1 as amended: a read into a destination whose capacity is smaller
    than the next queued chunk panics (the `ReadBuf::put_slice` assertion)
    instead of copying a truncated prefix; the chunk has already been
    dequeued when the panic fires, so neither it nor any remainder can be
    returned by a subsequent read. -/
theorem claim_C1_amended (ch : Chan Bytes) (chunk : Bytes) (rest : List Bytes)
    (dest : ReadBuf) (hq : ch.queue = chunk :: rest)
    (hbig : dest.capacity < chunk.length) :
    UdpStream.poll_read ch dest = .panicked { ch with queue := rest } := by
  simp [UdpStream.poll_read, pollRecv, hq, ReadBuf.put_slice, Nat.not_le.mpr hbig]

/-- Claim C1 witness: the amended claim evaluated on the concrete
    counterexample state. -/
theorem claim_C1_witness :
    UdpStream.poll_read wChBig { capacity := 2, filled := [] } =
      .panicked { wChBig with queue := [] } :=
  claim_C1_amended wChBig [5, 6, 7] [] { capacity := 2, filled := [] } rfl (by decide)

/-- Claim C2: the code was meant to connect the fresh socket to the remote
    peer before spawning the private reader task, but line 195 drops the
    async `connect` future without awaiting it, so the socket stays
    unconnected, the OS filters nothing (every source is deliverable), the
    reader task pushes whatever arrives, and only the never-applied awaited
    connect would have installed the source filter the claim describes. -/
theorem claim_C2 :
    ∀ (addr eph src : SocketAddr) (chunk : Bytes),
      (UdpStream.connect addr eph).socket.connectedPeer = none ∧
      (UdpStream.connect addr eph).socket.deliverable src = true ∧
      dialReaderStep (UdpStream.connect addr eph).socket
          (Chan.fresh Bytes CHANNEL_LEN) src chunk =
        .pushed { Chan.fresh Bytes CHANNEL_LEN with queue := [chunk] } ∧
      (∀ (s : UdpSocketState),
        (s.connectAwaited addr).deliverable src = (src == addr)) := by
  intro addr eph src chunk
  refine ⟨rfl, rfl, ?_, fun s => rfl⟩
  simp [dialReaderStep, UdpSocketState.deliverable, UdpStream.connect, bsend,
    Chan.fresh, CHANNEL_LEN]

/-- Claim C3: a datagram from an endpoint absent from the peer table
    registers a table entry exactly when both the initial push onto the
    fresh inbound queue and the accept-queue push succeed; when the
    accept-consumer side is gone the push fails and the step returns the
    state unchanged (connection discarded, no entry, loop continues); a
    full-but-alive accept queue blocks the iteration instead, so no
    partially registered state is ever produced. -/
theorem claim_C3 :
    (∀ (s : LoopState) (p : SocketAddr) (b : Bytes),
        lookupA s.streams p = none → s.acceptQ.rxAlive = false →
        datagramStep s p b = .ok s) ∧
    (∀ (s : LoopState) (p : SocketAddr) (b : Bytes),
        lookupA s.streams p = none → s.acceptQ.rxAlive = true →
        s.acceptQ.queue.length < s.acceptQ.cap →
        datagramStep s p b =
          .ok { s with
            acceptQ := { s.acceptQ with queue := s.acceptQ.queue ++ [p] }
            streams := insertA s.streams p
              { cap := CHANNEL_LEN, queue := [b], rxAlive := true, txAlive := true } }) ∧
    (∀ (s : LoopState) (p : SocketAddr) (b : Bytes),
        lookupA s.streams p = none → s.acceptQ.rxAlive = true →
        s.acceptQ.cap ≤ s.acceptQ.queue.length →
        datagramStep s p b = .blocked s) :=
  ⟨datagramStep_new_closed, datagramStep_new_ok, datagramStep_new_full⟩

/-- Loop state whose accept-consumer side has been dropped. -/
def wStateClosed : LoopState :=
  { local_addr := addrA
    streams := []
    acceptQ := { cap := CHANNEL_LEN, queue := [], rxAlive := false, txAlive := true }
    dropQ := Chan.fresh SocketAddr 1 }

/-- Claim C3 witness: the unknown-endpoint step on concrete states, once
    with the accept consumer gone (state unchanged) and once on a freshly
    bound listener (entry registered, accept delivery enqueued). -/
theorem claim_C3_witness :
    datagramStep wStateClosed addrB [1, 2] = .ok wStateClosed ∧
    datagramStep (UdpListener.bind addrA) addrB [1, 2] =
      .ok { UdpListener.bind addrA with
        acceptQ := { (UdpListener.bind addrA).acceptQ with queue := [addrB] }
        streams := [(addrB,
          { cap := CHANNEL_LEN, queue := [[1, 2]], rxAlive := true, txAlive := true })] } :=
  ⟨claim_C3.1 wStateClosed addrB [1, 2] rfl rfl,
   claim_C3.2.1 (UdpListener.bind addrA) addrB [1, 2] rfl rfl (by decide)⟩

/-- Claim C4: a datagram from a tabled endpoint whose inbound-queue receiver
    has been dropped makes the loop erase that entry and drop the datagram,
    continuing with no error outcome; the endpoint then no longer resolves in
    the table, so a later datagram takes the brand-new-connection path
    (fresh queue, accept delivery). -/
theorem claim_C4 :
    (∀ (s : LoopState) (p : SocketAddr) (ch : Chan Bytes) (b : Bytes),
        lookupA s.streams p = some ch → ch.rxAlive = false →
        datagramStep s p b = .ok { s with streams := eraseA s.streams p }) ∧
    (∀ (s : LoopState) (p : SocketAddr),
        lookupA (eraseA s.streams p) p = none) ∧
    (∀ (s : LoopState) (p : SocketAddr) (b2 : Bytes),
        lookupA s.streams p = none → s.acceptQ.rxAlive = true →
        s.acceptQ.queue.length < s.acceptQ.cap →
        datagramStep s p b2 =
          .ok { s with
            acceptQ := { s.acceptQ with queue := s.acceptQ.queue ++ [p] }
            streams := insertA s.streams p
              { cap := CHANNEL_LEN, queue := [b2], rxAlive := true, txAlive := true } }) :=
  ⟨datagramStep_known_dead, fun s p => lookupA_eraseA_self s.streams p,
   datagramStep_new_ok⟩

/-- Inbound queue whose receiving half has been dropped. -/
def wChDead : Chan Bytes :=
  { cap := CHANNEL_LEN, queue := [], rxAlive := false, txAlive := true }

/-- Loop state carrying one stale entry for `addrB`. -/
def wStateDead : LoopState :=
  { local_addr := addrA
    streams := [(addrB, wChDead)]
    acceptQ := Chan.fresh SocketAddr CHANNEL_LEN
    dropQ := Chan.fresh SocketAddr 1 }

/-- Claim C4 witness: the stale-entry reconciliation evaluated on a concrete
    state — the entry is erased and the endpoint no longer resolves. -/
theorem claim_C4_witness :
    datagramStep wStateDead addrB [3] = .ok { wStateDead with streams := [] } ∧
    lookupA (eraseA wStateDead.streams addrB) addrB = none :=
  ⟨claim_C4.1 wStateDead addrB wChDead [3] rfl rfl,
   claim_C4.2.1 wStateDead addrB⟩

/-- Claim C5 counterexample: a queue whose sending half has disappeared but
    which still buffers a chunk does not give a broken-pipe error — the read
    yields the buffered chunk — so "error if and only if the sending half
    has disappeared" fails in the only-if-to-error direction for reads. -/
theorem claim_C5_counterexample :
    ({ cap := CHANNEL_LEN, queue := [[7]], rxAlive := true, txAlive := false } :
      Chan Bytes).txAlive = false ∧
    UdpStream.poll_read
        { cap := CHANNEL_LEN, queue := [[7]], rxAlive := true, txAlive := false }
        { capacity := 8, filled := [] } =
      .ok { cap := CHANNEL_LEN, queue := [], rxAlive := true, txAlive := false }
        { capacity := 7, filled := [7] } :=
  ⟨rfl, rfl⟩

/-- Claim C5 as amended: a read gives the broken-pipe error exactly when its
    inbound queue's sending half has disappeared AND the queue is drained,
    and accept gives it exactly when the accept-queue producer has
    disappeared and that queue is drained; in every other case the
    operations do not produce that error (they suspend, yield data, or — for
    a read into a too-small destination — panic as established for C1). -/
theorem claim_C5_amended :
    (∀ (ch : Chan Bytes) (dest : ReadBuf),
        UdpStream.poll_read ch dest = .brokenPipe ↔
          ch.queue = [] ∧ ch.txAlive = false) ∧
    (∀ (q : Chan SocketAddr),
        UdpListener.accept q = .brokenPipe ↔ q.queue = [] ∧ q.txAlive = false) := by
  constructor
  · intro ch dest
    cases hq : ch.queue with
    | nil =>
      cases htx : ch.txAlive
      · simp [UdpStream.poll_read, pollRecv, hq, htx]
      · simp [UdpStream.poll_read, pollRecv, hq, htx]
    | cons c rest =>
      simp only [UdpStream.poll_read, pollRecv, hq]
      cases h2 : dest.put_slice c
      · simp [h2, hq]
      · simp [h2, hq]
  · intro q
    cases hq : q.queue with
    | nil => cases htx : q.txAlive <;> simp [UdpListener.accept, hq, htx]
    | cons a rest => simp [UdpListener.accept, hq]

/-- Claim C6: a poll_write that completes sends the given bytes as exactly
    one datagram addressed to the connection's peer through the shared
    socket; a ready send error is surfaced unchanged and additionally fires
    the best-effort (`try_send`) cleanup notification when a cleanup sender
    exists (accepted flavor; `Option.map` makes it a no-op for the dialed
    flavor); a not-ready socket leaves everything untouched. -/
theorem claim_C6 :
    (∀ (st : UdpStreamState) (buf : Bytes),
        UdpStream.poll_write st buf .success =
          (.ready (.ok buf.length),
            { st with outbox := st.outbox ++ [(buf, st.peer_addr)] })) ∧
    (∀ (st : UdpStreamState) (buf : Bytes) (e : IOErr),
        UdpStream.poll_write st buf (.failure e) =
          (.ready (.error e),
            { st with drop := st.drop.map (fun c => (trySend c st.peer_addr).1) })) ∧
    (∀ (st : UdpStreamState) (buf : Bytes),
        UdpStream.poll_write st buf .notReady = (.pending, st)) :=
  ⟨fun _ _ => rfl, fun _ _ _ => rfl, fun _ _ => rfl⟩

/-- Claim C7: the cleanup channel is created with capacity exactly one; a
    `try_send` on it never blocks and simply loses the notification when the
    slot is occupied; drop, explicit shutdown and a failed write all notify
    through that same `try_send`; the loop handles a received notification by
    erasing the endpoint unconditionally, and erasing an absent key leaves
    the table unchanged, so duplicate or late notifications are no-ops. -/
theorem claim_C7 :
    (∀ (a : SocketAddr), (UdpListener.bind a).dropQ.cap = 1) ∧
    (∀ (c : Chan SocketAddr) (x : SocketAddr),
        c.cap ≤ c.queue.length → trySend c x = (c, false)) ∧
    (∀ (st : UdpStreamState),
        (UdpStream.drop st).drop = st.drop.map (fun c => (trySend c st.peer_addr).1)) ∧
    (∀ (st : UdpStreamState),
        (UdpStream.shutdown st).drop =
          st.drop.map (fun c => (trySend c st.peer_addr).1)) ∧
    (∀ (st : UdpStreamState) (buf : Bytes) (e : IOErr),
        ((UdpStream.poll_write st buf (.failure e)).2).drop =
          st.drop.map (fun c => (trySend c st.peer_addr).1)) ∧
    (∀ (s : LoopState) (addr : SocketAddr),
        cleanupStep s addr = { s with streams := eraseA s.streams addr }) ∧
    (∀ (m : List (SocketAddr × Chan Bytes)) (addr : SocketAddr),
        lookupA m addr = none → eraseA m addr = m) :=
  ⟨fun _ => rfl,
   fun c x h => by simp [trySend, Nat.not_lt.mpr h],
   fun _ => rfl, fun _ => rfl, fun _ _ _ => rfl, fun _ _ => rfl,
   fun m addr h => eraseA_absent m addr h⟩

/-- Cleanup channel whose single slot is already occupied. -/
def wDropFull : Chan SocketAddr :=
  { cap := 1, queue := [addrA], rxAlive := true, txAlive := true }

/-- Claim C7 witness: on a full capacity-1 cleanup channel the notification
    is lost without blocking, and erasing a key absent from an empty table
    returns the table unchanged. -/
theorem claim_C7_witness :
    trySend wDropFull addrB = (wDropFull, false) ∧
    eraseA ([] : List (SocketAddr × Chan Bytes)) addrB = [] :=
  ⟨claim_C7.2.1 wDropFull addrB (by decide),
   claim_C7.2.2.2.2.2.2 [] addrB rfl⟩

/-- Claim C8: datagrams arriving from a single peer while its entry is live
    (receiver alive, enough queue room) are all consumed by the loop and
    appended to that peer's inbound queue in arrival order, and reading the
    queue with sufficiently large destinations yields exactly those payloads,
    one whole payload per read, with no coalescing or splitting. -/
theorem claim_C8 (p : SocketAddr) (ds : List Bytes) (s : LoopState)
    (ch : Chan Bytes) (destCap : Nat) (hl : lookupA s.streams p = some ch)
    (ha : ch.rxAlive = true) (hcap : ch.queue.length + ds.length ≤ ch.cap)
    (hfit : ∀ b ∈ ch.queue ++ ds, b.length ≤ destCap) :
    (runLoop s (ds.map (fun b => (p, b)))).2 = [] ∧
    ∃ ch2 : Chan Bytes,
      lookupA (runLoop s (ds.map (fun b => (p, b)))).1.streams p = some ch2 ∧
      ch2.queue = ch.queue ++ ds ∧
      readMany ch2 destCap (ch.queue ++ ds).length = ch.queue ++ ds := by
  obtain ⟨h1, h2⟩ := runLoop_single_peer p ds s ch hl ha hcap
  refine ⟨h1, { ch with queue := ch.queue ++ ds }, h2, rfl, ?_⟩
  exact readMany_all destCap (ch.queue ++ ds) ch.cap ch.rxAlive ch.txAlive hfit

/-- Inbound queue for the ordering witness: one chunk already buffered. -/
def wChOrd : Chan Bytes := { cap := 3, queue := [[9]], rxAlive := true, txAlive := true }

/-- Loop state for the ordering witness. -/
def wStateOrd : LoopState :=
  { local_addr := addrA
    streams := [(addrB, wChOrd)]
    acceptQ := Chan.fresh SocketAddr CHANNEL_LEN
    dropQ := Chan.fresh SocketAddr 1 }

/-- Claim C8 witness: two datagrams from `addrB` land behind the buffered
    chunk and three reads return the three payloads in order. -/
theorem claim_C8_witness :
    (runLoop wStateOrd ([[1, 2], [3]].map (fun b => (addrB, b)))).2 = [] ∧
    ∃ ch2 : Chan Bytes,
      lookupA (runLoop wStateOrd
        ([[1, 2], [3]].map (fun b => (addrB, b)))).1.streams addrB = some ch2 ∧
      ch2.queue = wChOrd.queue ++ [[1, 2], [3]] ∧
      readMany ch2 5 (wChOrd.queue ++ [[1, 2], [3]]).length =
        wChOrd.queue ++ [[1, 2], [3]] :=
  claim_C8 addrB [[1, 2], [3]] wStateOrd wChOrd 5 rfl rfl (by decide) (by decide)

/-- Claim C9: when a tabled peer's inbound queue is full with its receiver
    alive, or the endpoint is new and the accept queue is full with its
    consumer alive, the awaited push suspends the single receive iteration:
    the loop consumes nothing further, so no datagram from any other peer is
    received or delivered until the push completes. -/
theorem claim_C9 :
    (∀ (s : LoopState) (p : SocketAddr) (ch : Chan Bytes) (b : Bytes)
        (rest : List (SocketAddr × Bytes)),
        lookupA s.streams p = some ch → ch.rxAlive = true →
        ch.cap ≤ ch.queue.length →
        runLoop s ((p, b) :: rest) = (s, (p, b) :: rest)) ∧
    (∀ (s : LoopState) (p : SocketAddr) (b : Bytes)
        (rest : List (SocketAddr × Bytes)),
        lookupA s.streams p = none → s.acceptQ.rxAlive = true →
        s.acceptQ.cap ≤ s.acceptQ.queue.length →
        runLoop s ((p, b) :: rest) = (s, (p, b) :: rest)) := by
  constructor
  · intro s p ch b rest hl ha hfull
    exact runLoop_blocked_head s p b rest (datagramStep_known_full s p ch b hl ha hfull)
  · intro s p b rest hl hrx hfull
    exact runLoop_blocked_head s p b rest (datagramStep_new_full s p b hl hrx hfull)

/-- Inbound queue of capacity 1 already holding a chunk. -/
def wChFull : Chan Bytes := { cap := 1, queue := [[9]], rxAlive := true, txAlive := true }

/-- Loop state whose tabled peer `addrB` has a full inbound queue. -/
def wStateFull : LoopState :=
  { local_addr := addrA
    streams := [(addrB, wChFull)]
    acceptQ := Chan.fresh SocketAddr CHANNEL_LEN
    dropQ := Chan.fresh SocketAddr 1 }

/-- Loop state with no tabled peers and a full capacity-1 accept queue. -/
def wStateAccFull : LoopState :=
  { local_addr := addrA
    streams := []
    acceptQ := { cap := 1, queue := [addrA], rxAlive := true, txAlive := true }
    dropQ := Chan.fresh SocketAddr 1 }

/-- Claim C9 witness: with `addrB` blocked, the pending datagram from the
    other peer `addrA` is not consumed, in either blocking scenario. -/
theorem claim_C9_witness :
    runLoop wStateFull [(addrB, [7]), (addrA, [8])] =
      (wStateFull, [(addrB, [7]), (addrA, [8])]) ∧
    runLoop wStateAccFull [(addrB, [7]), (addrA, [8])] =
      (wStateAccFull, [(addrB, [7]), (addrA, [8])]) :=
  ⟨claim_C9.1 wStateFull addrB wChFull [7] [(addrA, [8])] rfl rfl (by decide),
   claim_C9.2 wStateAccFull addrB [7] [(addrA, [8])] rfl rfl (by decide)⟩

/-- Claim C10: poll_flush and poll_shutdown complete immediately with
    success and leave the whole connection state — the cleanup channel
    included — unchanged; only the inherent shutdown (like drop) pushes a
    cleanup notification, which lands in the channel when its slot is free. -/
theorem claim_C10 :
    (∀ (st : UdpStreamState), UdpStream.poll_flush st = (.ready (.ok ()), st)) ∧
    (∀ (st : UdpStreamState), UdpStream.poll_shutdown st = (.ready (.ok ()), st)) ∧
    (∀ (st : UdpStreamState), (UdpStream.poll_shutdown st).2.drop = st.drop) ∧
    (∀ (st : UdpStreamState) (c : Chan SocketAddr),
        st.drop = some c → c.rxAlive = true → c.queue.length < c.cap →
        (UdpStream.shutdown st).drop =
          some { c with queue := c.queue ++ [st.peer_addr] }) := by
  refine ⟨fun _ => rfl, fun _ => rfl, fun _ => rfl, ?_⟩
  intro st c hc ha hroom
  simp [UdpStream.shutdown, hc, trySend, ha, hroom]

/-- Accepted-flavor stream state with a free cleanup slot. -/
def wStreamAcc : UdpStreamState :=
  { local_addr := addrA
    peer_addr := addrB
    receiver := Chan.fresh Bytes CHANNEL_LEN
    outbox := []
    handler := false
    drop := some (Chan.fresh SocketAddr 1) }

/-- Claim C10 witness: the inherent shutdown on a concrete accepted stream
    enqueues its peer endpoint into the free cleanup slot. -/
theorem claim_C10_witness :
    (UdpStream.shutdown wStreamAcc).drop =
      some { Chan.fresh SocketAddr 1 with queue := [addrB] } :=
  claim_C10.2.2.2 wStreamAcc (Chan.fresh SocketAddr 1) rfl rfl (by decide)
